import Mathlib

/-!
Verification development for the verdantia backend bootstrapper
(src/backend/app.py).  The Python source is shallowly embedded below:
pure helpers from the standard library and from werkzeug/flask/pymongo
that the routing and configuration logic relies on are given executable
Lean definitions, the handlers of app.py are translated on top of them,
and the behavioural claims about the program are proved or refuted.

Filesystem state is passed explicitly (a pair of predicates for regular
files and directories, or an explicit list-based state for the
directory-creation step), the process environment is an explicit map
from variable names to optional string values, and request handling is
a pure function from that state to a response value.
-/

namespace Verdantia

/-- Python str.split with a one-character separator, on the character
list of the string: every occurrence of the separator splits, empty
chunks are kept, and the empty input yields a single empty chunk.
Embeds the call cors_origins.split in create_app and the component
splitting used by posixpath.normpath. -/
def pySplit (sep : Char) : List Char → List (List Char)
  | [] => [[]]
  | c :: rest =>
    if c = sep then [] :: pySplit sep rest
    else
      match pySplit sep rest with
      | [] => [[c]]
      | h :: t => (c :: h) :: t

/-- Joining a list of chunks with a one-character separator; inverse
direction of pySplit, and the embedding of the str.join call inside
posixpath.normpath. -/
def joinWith (sep : Char) : List (List Char) → List Char
  | [] => []
  | [x] => x
  | x :: xs => x ++ sep :: joinWith sep xs

/-- One step of the component loop of CPython posixpath.normpath.  The
accumulator is kept reversed so that the last component is the head.
A component that is empty or a single dot is dropped; a non-dot-dot
component is appended, as is a dot-dot when the path is relative and
nothing has been collected yet or when the previous component is
already a dot-dot; otherwise a dot-dot pops the previous component
(or is dropped at the root of an absolute path). -/
def npStep (abs : Bool) (acc : List (List Char)) (comp : List Char) : List (List Char) :=
  if comp == [] || comp == ['.'] then acc
  else if comp != ['.', '.'] || (!abs && acc == []) || acc.head? == some ['.', '.'] then
    comp :: acc
  else acc.tail

/-- CPython posixpath.normpath: collapse duplicate slashes and single
dots, resolve dot-dot components where possible, keep one or exactly
two leading slashes of an absolute path, and return a single dot for
an empty result. -/
def normpath (s : String) : String :=
  let cs := s.data
  let abs : Bool := cs.head? == some '/'
  let dbl : Bool := (cs.take 2 == ['/', '/']) && !(cs.take 3 == ['/', '/', '/'])
  let comps := pySplit '/' cs
  let nc := (comps.foldl (npStep abs) []).reverse
  let slashes : List Char := if abs then (if dbl then ['/', '/'] else ['/']) else []
  let res := slashes ++ joinWith '/' nc
  if res == [] then "." else String.mk res

/-- CPython posixpath.join for two arguments: an absolute second
argument replaces the first, otherwise the two are joined with a
slash unless the first is empty or already ends in a slash. -/
def posixJoin (a b : String) : String :=
  if b.data.head? == some '/' then b
  else if a == "" || a.data.getLast? == some '/' then a ++ b
  else a ++ "/" ++ b

/-- Werkzeug safe_join on a posix system (where no alternative path
separators exist): an empty directory is replaced by a single dot, a
non-empty requested name is normalised, and the result is None when
the normalised name is absolute, equals dot-dot, or starts with a
dot-dot segment; otherwise the posix join of the two. -/
def safe_join (directory filename : String) : Option String :=
  let dir := if directory == "" then "." else directory
  let f := if filename == "" then filename else normpath filename
  if f.data.head? == some '/' || f == ".." || f.data.take 3 == ['.', '.', '/'] then none
  else some (posixJoin dir f)

/-- A requested name escapes the serving root exactly when its
normalised form is absolute, equals dot-dot, or starts with a dot-dot
segment; this is the condition werkzeug safe_join rejects. -/
def escapesB (filename : String) : Bool :=
  let f := normpath filename
  f.data.head? == some '/' || f == ".." || f.data.take 3 == ['.', '.', '/']

/-- Read-only view of the filesystem used by the request handlers: which
paths are regular files and which are directories. -/
structure FS where
  isFile : String → Bool
  isDir : String → Bool

/-- Python os.path.exists: true when the path is a regular file or a
directory. -/
def FS.pathExists (fs : FS) (p : String) : Bool :=
  fs.isFile p || fs.isDir p

/-- Outcome of one handled request.  fileOk p is a 200 response whose
body is exactly the bytes of the file at path p; healthUp is the 200
JSON body with ok true and db "up"; healthDown e is the 500 JSON body
with ok false, db "down" and the error field e; notBuilt is the 501
JSON body with error "frontend_not_built". -/
inductive Response where
  | fileOk (path : String)
  | notFound
  | healthUp
  | healthDown (error : String)
  | notBuilt
deriving DecidableEq

/-- HTTP status code of a response value. -/
def statusOf : Response → Nat
  | .fileOk _ => 200
  | .notFound => 404
  | .healthUp => 200
  | .healthDown _ => 500
  | .notBuilt => 501

/-- The error field of a JSON health body, when present. -/
def errorField : Response → Option String
  | .healthDown e => some e
  | _ => none

/-- Flask send_from_directory: resolve the requested name against the
directory with safe_join, answer 404 when the join is rejected or when
no regular file exists at the joined path, and otherwise serve the
bytes of that file.  The directory arguments of app.py are taken as
given, so the flask root-path resolution step is the identity. -/
def send_from_directory (fs : FS) (directory filename : String) : Response :=
  match safe_join directory filename with
  | none => Response.notFound
  | some p => if fs.isFile p then Response.fileOk p else Response.notFound

/-- Process environment: a map from variable names to the value, when
the variable is set (possibly to the empty string). -/
def Env : Type := String → Option String

/-- Python os.getenv with a default: the stored value when the variable
is set, even when that value is empty, and the default otherwise. -/
def getenv (env : Env) (name default : String) : String :=
  (env name).getD default

/-- The configuration values that create_app stores in app.config,
assembled from the environment; cwd stands for os.getcwd(). -/
structure Config where
  jwtSecretKey : String
  uploadDir : String
  certDir : String
  frontendDir : String
deriving DecidableEq

/-- The config block of create_app in app.py. -/
def create_app_config (cwd : String) (env : Env) : Config :=
  ⟨getenv env "JWT_SECRET_KEY" "dev-secret-change-me",
   getenv env "UPLOAD_DIR" "uploads",
   getenv env "CERT_DIR" "certs",
   getenv env "FRONTEND_DIR" (posixJoin (posixJoin cwd "frontend") "dist")⟩

/-- The cross-origin policy handed to the CORS layer: either the
wildcard-all sentinel or an explicit ordered list of origin strings. -/
inductive CorsPolicy where
  | wildcard
  | origins (l : List String)
deriving DecidableEq

/-- The raw CORS_ORIGINS setting read in create_app. -/
def corsSetting (env : Env) : String :=
  getenv env "CORS_ORIGINS" "*"

/-- The origins argument create_app passes to CORS: the wildcard for
the literal star, and otherwise the comma-split of the raw value. -/
def corsPolicyOf (s : String) : CorsPolicy :=
  if s == "*" then CorsPolicy.wildcard
  else CorsPolicy.origins ((pySplit ',' s.data).map String.mk)

/-- ASCII lower-casing of one character, as Python str.lower acts on
the ASCII values appearing in the FLASK_DEBUG setting. -/
def lowerAscii (c : Char) : Char :=
  if 'A' ≤ c && c ≤ 'Z' then Char.ofNat (c.toNat + 32) else c

/-- Python str.lower restricted to ASCII. -/
def pyLower (s : String) : String :=
  String.mk (s.data.map lowerAscii)

/-- Whether a character is an ASCII decimal digit. -/
def isDigitChar (c : Char) : Bool :=
  '0' ≤ c && c ≤ '9'

/-- Value of a list of decimal digits. -/
def digitsVal (cs : List Char) : Nat :=
  cs.foldl (fun n c => 10 * n + (c.toNat - '0'.toNat)) 0

/-- Python int applied to a string, modelled for the plain decimal
strings the PORT setting carries: surrounding spaces are stripped, an
optional sign is allowed, and anything that is not a non-empty digit
string after that is a ValueError, returned as none. -/
def pyInt (s : String) : Option Int :=
  let cs := ((s.data.dropWhile (· == ' ')).reverse.dropWhile (· == ' ')).reverse
  match cs with
  | '-' :: ds => if !ds.isEmpty && ds.all isDigitChar then some (-(digitsVal ds : Int)) else none
  | '+' :: ds => if !ds.isEmpty && ds.all isDigitChar then some (digitsVal ds : Int) else none
  | ds => if !ds.isEmpty && ds.all isDigitChar then some (digitsVal ds : Int) else none

/-- The port computation of the main block: int(os.getenv("PORT", 5000));
when the variable is unset the integer default is passed through int
unchanged, otherwise the string value is parsed and a parse failure is
a startup error, returned as none. -/
def portOf (env : Env) : Option Int :=
  match env "PORT" with
  | none => some 5000
  | some v => pyInt v

/-- The debug computation of the main block:
os.getenv("FLASK_DEBUG", "false").lower() == "true". -/
def debugOf (env : Env) : Bool :=
  pyLower (getenv env "FLASK_DEBUG" "false") == "true"

/-- Characters following the first scheme separator (colon slash slash)
of a URI, when one occurs. -/
def dropSchemeSep : List Char → Option (List Char)
  | [] => none
  | ':' :: '/' :: '/' :: rest => some rest
  | _ :: rest => dropSchemeSep rest

/-- The error pymongo raises when the connection URI carries no
database name and get_default_database is called without a default
argument. -/
def configurationError : String :=
  "ConfigurationError: No default database name defined or provided."

/-- Default database of a mongodb connection URI, as the pymongo client
constructed from that URI reports it: the non-empty path component
between the first slash after the host part and the option part of the
URI.  When the URI carries no database name (and no default argument
is passed, as in the call in app.py), pymongo raises
ConfigurationError: it never returns a None value, so the subsequent
db-is-None check of _init_db can never fire.  A URI without a scheme
separator would already have failed at client construction; it is
folded into the same error case here. -/
def get_default_database (uri : String) : Except String String :=
  match dropSchemeSep uri.data with
  | none => Except.error configurationError
  | some rest =>
    match rest.dropWhile (fun c => c != '/') with
    | [] => Except.error configurationError
    | _ :: path =>
      if (path.takeWhile (fun c => c != '?')).isEmpty then Except.error configurationError
      else Except.ok (String.mk (path.takeWhile (fun c => c != '?')))

/-- The connection URI _init_db reads from the environment before
constructing the client. -/
def mongoUriOf (env : Env) : String :=
  getenv env "MONGO_URI" "mongodb://localhost:27017/verdantia"

/-- The _init_db function of app.py, returning the pair of the
connection URI and the resolved logical database name, or the
startup exception that escapes it.  An unset MONGO_DB behaves like the
empty string, because Python truthiness identifies None and the empty
string in the guard.  In the fallback branch, get_default_database
either returns the URI-embedded name — which is never None, so the
source line replacing a None db by client of verdantia is dead code —
or raises, and the exception propagates out of _init_db. -/
def _init_db (env : Env) : Except String (String × String) :=
  let mongo_uri := mongoUriOf env
  let mongo_db := (env "MONGO_DB").getD ""
  if mongo_db != "" then Except.ok (mongo_uri, mongo_db)
  else
    match get_default_database mongo_uri with
    | Except.ok n => Except.ok (mongo_uri, n)
    | Except.error e => Except.error e

/-- Outcome of the ping round-trip inside the health handler: success,
an exception from the pymongo error hierarchy carrying its string
description, or an exception of any other class. -/
inductive PingOutcome where
  | ok
  | pyMongoError (msg : String)
  | otherError (msg : String)
deriving DecidableEq

/-- The health handler of app.py: a successful ping yields the 200 up
body; a PyMongoError is caught and converted to the 500 down body whose
error field is the string form of the exception; an exception of any
other class is not caught and escapes the handler, modelled as the
error case of Except. -/
def health (ping : PingOutcome) : Except String Response :=
  match ping with
  | .ok => Except.ok Response.healthUp
  | .pyMongoError msg => Except.ok (Response.healthDown msg)
  | .otherError msg => Except.error msg

/-- The serve_upload handler of app.py. -/
def serve_upload (fs : FS) (cfg : Config) (filename : String) : Response :=
  send_from_directory fs cfg.uploadDir filename

/-- The serve_cert handler of app.py. -/
def serve_cert (fs : FS) (cfg : Config) (filename : String) : Response :=
  send_from_directory fs cfg.certDir filename

/-- The serve_spa_index helper of app.py: when anything exists at the
index path inside the frontend directory it is handed to
send_from_directory, and otherwise the 501 frontend-not-built body is
returned. -/
def serve_spa_index (fs : FS) (cfg : Config) : Response :=
  let index_path := posixJoin cfg.frontendDir "index.html"
  if fs.pathExists index_path then send_from_directory fs cfg.frontendDir "index.html"
  else Response.notBuilt

/-- The spa_root handler of app.py, registered for the root path. -/
def spa_root (fs : FS) (cfg : Config) : Response :=
  serve_spa_index fs cfg

/-- The spa_catch_all handler of app.py: when a regular file exists at
the plain join of the frontend directory and the requested path, the
request is handed to send_from_directory, and otherwise the index
fallback runs. -/
def spa_catch_all (fs : FS) (cfg : Config) (p : String) : Response :=
  let full := posixJoin cfg.frontendDir p
  if fs.isFile full then send_from_directory fs cfg.frontendDir p
  else serve_spa_index fs cfg

/-- Whether the first list is an initial segment of the second. -/
def listStarts : List Char → List Char → Bool
  | [], _ => true
  | _ :: _, [] => false
  | p :: ps, c :: cs => p == c && listStarts ps cs

/-- Whether the first string is an initial segment of the second. -/
def strStarts (p s : String) : Bool :=
  listStarts p.data s.data

/-- The string with its first n characters removed. -/
def strDropN (s : String) (n : Nat) : String :=
  String.mk (s.data.drop n)

/-- Where the werkzeug rule map built in create_app sends one request
path. -/
inductive RouteTarget where
  | feature (p : String)
  | upload (filename : String)
  | cert (filename : String)
  | healthRoute
  | spaRootRoute
  | spaCatch (p : String)
  | noMatch
deriving DecidableEq

/-- Dispatch of one GET request path by the rule map of create_app.
Modelled from the spec: the route sets registered by the blueprint
modules are repository code outside src/, so they are abstracted as
the list of request paths matched by some blueprint rule; the spec
mounts every module under an /api prefix, keeping those paths disjoint
from the fixed rules of app.py.  A path matching a blueprint rule is
delegated; otherwise the fixed rules apply: the uploads and certs
rules for their respective non-empty remainders, the health rule, the
root rule, and the catch-all rule whose path converter requires a
non-empty remainder. -/
def dispatch (featureRoutes : List String) (p : String) : RouteTarget :=
  if p ∈ featureRoutes then RouteTarget.feature p
  else if strStarts "/uploads/" p && strDropN p 9 != "" then RouteTarget.upload (strDropN p 9)
  else if strStarts "/certs/" p && strDropN p 7 != "" then RouteTarget.cert (strDropN p 7)
  else if p == "/health" then RouteTarget.healthRoute
  else if p == "/" then RouteTarget.spaRootRoute
  else if strStarts "/" p && strDropN p 1 != "" then RouteTarget.spaCatch (strDropN p 1)
  else RouteTarget.noMatch

instance {ε α : Type} [DecidableEq ε] [DecidableEq α] : DecidableEq (Except ε α)
  | .error e, .error f => decidable_of_iff (e = f) (by simp)
  | .ok x, .ok y => decidable_of_iff (x = y) (by simp)
  | .error _, .ok _ => isFalse (by simp)
  | .ok _, .error _ => isFalse (by simp)

/-- Explicit filesystem state for the directory-creation step: the
directories and the regular files currently present. -/
structure DirState where
  dirs : List String
  files : List String
deriving DecidableEq

/-- The chain of paths os.makedirs visits for a target path: every
initial run of slash-separated components, joined back, from the first
component up to the full path. -/
def pathChain (p : String) : List String :=
  let comps := pySplit '/' p.data
  (List.range comps.length).map (fun i => String.mk (joinWith '/' (comps.take (i + 1))))

/-- One mkdir step of os.makedirs with exist_ok set: the empty chain
element that an absolute path contributes stands for the root and is
skipped; a chain element present as a regular file makes mkdir fail
and the failure is re-raised because the path is not a directory; a
chain element already present as a directory is accepted unchanged;
and a missing chain element is created. -/
def mkdirStep (acc : Except String DirState) (q : String) : Except String DirState :=
  match acc with
  | .error e => Except.error e
  | .ok st =>
    if q == "" then Except.ok st
    else if q ∈ st.files then Except.error "FileExistsError"
    else if q ∈ st.dirs then Except.ok st
    else Except.ok ⟨st.dirs ++ [q], st.files⟩

/-- Python os.makedirs with exist_ok set, on the explicit state: the
chain of ancestor paths is created in order. -/
def makedirs (st : DirState) (p : String) : Except String DirState :=
  (pathChain p).foldl mkdirStep (Except.ok st)

/-- The directory-ensure step of create_app: os.makedirs on the upload
directory, then on the certificate directory. -/
def ensure_dirs (st : DirState) (cfg : Config) : Except String DirState :=
  match makedirs st cfg.uploadDir with
  | .error e => Except.error e
  | .ok st1 => makedirs st1 cfg.certDir

/-- A string built from a character list is empty only for the empty
list. -/
lemma mk_eq_empty {l : List Char} (h : String.mk l = "") : l = [] :=
  congrArg String.data h

/-- C1: at the failing input — a connection URI that omits the database
name, with MONGO_DB unset — database initialization raises pymongo
ConfigurationError instead of selecting the fixed default name
verdantia: get_default_database never returns a None value, so the
db-is-None fallback branch of _init_db is dead code and the startup
exception escapes.  The second conjunct evaluates the same environment
with an explicit override, showing step one of the chain still works,
so the slip is confined to the missing-name fallback. -/
theorem C1_nameless_uri_raises :
    _init_db (fun k => if k == "MONGO_URI" then some "mongodb://localhost:27017" else none)
      = Except.error configurationError ∧
    _init_db (fun k => if k == "MONGO_URI" then some "mongodb://localhost:27017"
        else if k == "MONGO_DB" then some "inv" else none)
      = Except.ok ("mongodb://localhost:27017", "inv") := by
  refine ⟨by decide, by decide⟩

/-- C10: with neither MONGO_URI nor MONGO_DB set, initialization
succeeds using the built-in default URI and resolves the name
verdantia; and a MONGO_DB set to the empty string behaves exactly like
an unset one. -/
theorem C10_default_database_resolution (env : Env) :
    (env "MONGO_URI" = none → env "MONGO_DB" = none →
      _init_db env = Except.ok ("mongodb://localhost:27017/verdantia", "verdantia")) ∧
    (env "MONGO_DB" = some "" →
      _init_db env = _init_db (fun k => if k == "MONGO_DB" then none else env k)) := by
  constructor
  · intro hu hd
    simp only [_init_db, mongoUriOf, getenv, hu, hd]
    decide
  · intro hd
    simp [_init_db, mongoUriOf, getenv, hd]

/-- Witness for C10 at the empty environment and at the environment
holding only an empty MONGO_DB. -/
theorem C10_witness :
    _init_db (fun _ => none)
      = Except.ok ("mongodb://localhost:27017/verdantia", "verdantia") ∧
    _init_db (fun k => if k == "MONGO_DB" then some "" else none)
      = _init_db (fun k => if k == "MONGO_DB" then none
          else (fun _ => (none : Option String)) k) := by
  constructor
  · exact (C10_default_database_resolution (fun _ => none)).1 rfl rfl
  · exact (C10_default_database_resolution
      (fun k => if k == "MONGO_DB" then some "" else none)).2 (by decide)

/-- C2 counterexample: a PyMongoError whose string form is empty is
converted to the 500 down body whose error field is the empty string,
so the claimed non-empty error description does not hold for every
database-layer error. -/
theorem C2_health_counterexample :
    health (PingOutcome.pyMongoError "") = Except.ok (Response.healthDown "") ∧
    errorField (Response.healthDown "") = some "" ∧
    ("" : String).length = 0 := by
  refine ⟨rfl, rfl, rfl⟩

/-- C2 amended: a successful ping yields the 200 up body; a ping that
raises any error of the pymongo hierarchy is caught inside the handler
(the result is an ok value, never an escaping exception) and yields
the 500 down body whose error field is exactly the captured error
description — non-empty precisely when that description is non-empty. -/
theorem C2_health_amended (msg : String) :
    health PingOutcome.ok = Except.ok Response.healthUp ∧
    statusOf Response.healthUp = 200 ∧
    health (PingOutcome.pyMongoError msg) = Except.ok (Response.healthDown msg) ∧
    statusOf (Response.healthDown msg) = 500 ∧
    errorField (Response.healthDown msg) = some msg := by
  exact ⟨rfl, rfl, rfl, rfl, rfl⟩

/-- Splitting never produces the empty list of chunks. -/
lemma pySplit_ne_nil (sep : Char) (cs : List Char) : pySplit sep cs ≠ [] := by
  cases cs with
  | nil => simp [pySplit]
  | cons c rest =>
    by_cases h : c = sep
    · simp [pySplit, h]
    · simp only [pySplit, if_neg h]
      rcases pySplit sep rest with _ | ⟨x, xs⟩ <;> simp

/-- Joining the chunks of a split with the separator restores the
original character list: the split keeps every chunk, in order. -/
lemma joinWith_pySplit (sep : Char) (cs : List Char) :
    joinWith sep (pySplit sep cs) = cs := by
  induction cs with
  | nil => rfl
  | cons c rest ih =>
    by_cases h : c = sep
    · subst h
      rcases hs : pySplit c rest with _ | ⟨x, xs⟩
      · exact absurd hs (pySplit_ne_nil c rest)
      · rw [hs] at ih
        simp only [pySplit, if_pos rfl, hs, joinWith, List.nil_append]
        rw [ih]
    · rcases hs : pySplit sep rest with _ | ⟨x, xs⟩
      · exact absurd hs (pySplit_ne_nil sep rest)
      · rw [hs] at ih
        simp only [pySplit, if_neg h, hs]
        cases xs with
        | nil =>
          simp only [joinWith] at ih ⊢
          rw [ih]
        | cons y ys =>
          simp only [joinWith] at ih ⊢
          rw [List.cons_append, ih]

/-- No chunk produced by the split contains the separator. -/
lemma pySplit_no_sep (sep : Char) (cs : List Char) :
    ∀ piece ∈ pySplit sep cs, sep ∉ piece := by
  induction cs with
  | nil =>
    intro piece hp
    simp only [pySplit, List.mem_singleton] at hp
    simp [hp]
  | cons c rest ih =>
    by_cases h : c = sep
    · subst h
      intro piece hp
      simp only [pySplit, if_pos rfl] at hp
      rcases List.mem_cons.mp hp with hp | hp
      · simp [hp]
      · exact ih piece hp
    · rcases hs : pySplit sep rest with _ | ⟨x, xs⟩
      · exact absurd hs (pySplit_ne_nil sep rest)
      · intro piece hp
        simp only [pySplit, if_neg h, hs] at hp
        rcases List.mem_cons.mp hp with hp | hp
        · subst hp
          intro hmem
          rcases List.mem_cons.mp hmem with hm | hm
          · exact h hm.symm
          · exact ih x (by rw [hs]; exact List.mem_cons_self x xs) hm
        · exact ih piece (by rw [hs]; exact List.mem_cons_of_mem x hp)

/-- C5 counterexample: a value with a trailing comma is split into a
list whose last entry is the empty string, so the claimed absence of
empty entries fails; the entries are also not trimmed. -/
theorem C5_cors_counterexample :
    corsPolicyOf "https://a.com," = CorsPolicy.origins ["https://a.com", ""] ∧
    "" ∈ (["https://a.com", ""] : List String) := by
  refine ⟨by decide, by decide⟩

/-- C5 amended: the literal star yields the wildcard policy, and any
other value is split on commas into the ordered list of the raw,
untrimmed comma-separated substrings: no substring contains a comma
and rejoining them with commas restores the value exactly, but leading
or trailing commas contribute empty entries.  The two-origin example
of the claim holds as stated. -/
theorem C5_cors_amended (s : String) :
    corsPolicyOf "*" = CorsPolicy.wildcard ∧
    corsPolicyOf "https://a.com,https://b.com"
      = CorsPolicy.origins ["https://a.com", "https://b.com"] ∧
    (s ≠ "*" → ∀ L, corsPolicyOf s = CorsPolicy.origins L →
      L.map String.data = pySplit ',' s.data ∧
      joinWith ',' (L.map String.data) = s.data ∧
      ∀ piece ∈ L, ',' ∉ piece.data) := by
  refine ⟨rfl, by decide, ?_⟩
  intro hs L hL
  have hne : (s == "*") = false := by
    simpa using hs
  rw [corsPolicyOf, hne] at hL
  simp only [Bool.false_eq_true, if_false] at hL
  have hmap : L = (pySplit ',' s.data).map String.mk := (CorsPolicy.origins.inj hL).symm
  have hdata : L.map String.data = pySplit ',' s.data := by
    rw [hmap, List.map_map]
    have : (String.data ∘ String.mk) = id := funext (fun l => rfl)
    rw [this, List.map_id]
  refine ⟨hdata, ?_, ?_⟩
  · rw [hdata, joinWith_pySplit]
  · intro piece hp
    rw [hmap] at hp
    rcases List.mem_map.mp hp with ⟨q, hq, hqe⟩
    have : piece.data = q := by rw [← hqe]
    rw [this]
    exact pySplit_no_sep ',' s.data q hq

/-- Witness for C5 at the two-origin value of the claim: the split is
exactly the two origins, in order, comma-free, and rejoining them
restores the raw value. -/
theorem C5_cors_witness :
    (["https://a.com", "https://b.com"] : List String).map String.data
      = pySplit ',' ("https://a.com,https://b.com").data ∧
    joinWith ',' ((["https://a.com", "https://b.com"] : List String).map String.data)
      = ("https://a.com,https://b.com").data ∧
    ∀ piece ∈ (["https://a.com", "https://b.com"] : List String), ',' ∉ piece.data := by
  exact (C5_cors_amended "https://a.com,https://b.com").2.2 (by decide)
    ["https://a.com", "https://b.com"] (by decide)

/-- A request handled by send_from_directory answers 200 or 404 and
nothing else. -/
lemma send_from_directory_status (fs : FS) (d f : String) :
    statusOf (send_from_directory fs d f) = 200 ∨
    statusOf (send_from_directory fs d f) = 404 := by
  unfold send_from_directory
  rcases safe_join d f with _ | p
  · simp [statusOf]
  · by_cases hf : fs.isFile p
    · simp [hf, statusOf]
    · simp [hf, statusOf]

/-- C6: for the uploads and certs routes, a name that resolves against
the configured directory to an existing regular file is answered 200
with exactly the bytes of that file; a name whose resolution is
rejected or names no regular file is answered 404; and the status is
always 200 or 404, never a server error. -/
theorem C6_static_file_serving (fs : FS) (cfg : Config) (name p : String) :
    (safe_join cfg.uploadDir name = some p → fs.isFile p = true →
      serve_upload fs cfg name = Response.fileOk p) ∧
    (safe_join cfg.uploadDir name = some p → fs.isFile p = false →
      serve_upload fs cfg name = Response.notFound) ∧
    (safe_join cfg.uploadDir name = none → serve_upload fs cfg name = Response.notFound) ∧
    (safe_join cfg.certDir name = some p → fs.isFile p = true →
      serve_cert fs cfg name = Response.fileOk p) ∧
    (safe_join cfg.certDir name = some p → fs.isFile p = false →
      serve_cert fs cfg name = Response.notFound) ∧
    (safe_join cfg.certDir name = none → serve_cert fs cfg name = Response.notFound) ∧
    (statusOf (serve_upload fs cfg name) = 200 ∨ statusOf (serve_upload fs cfg name) = 404) ∧
    (statusOf (serve_cert fs cfg name) = 200 ∨ statusOf (serve_cert fs cfg name) = 404) := by
  refine ⟨?_, ?_, ?_, ?_, ?_, ?_, ?_, ?_⟩
  · intro hj hf; simp [serve_upload, send_from_directory, hj, hf]
  · intro hj hf; simp [serve_upload, send_from_directory, hj, hf]
  · intro hj; simp [serve_upload, send_from_directory, hj]
  · intro hj hf; simp [serve_cert, send_from_directory, hj, hf]
  · intro hj hf; simp [serve_cert, send_from_directory, hj, hf]
  · intro hj; simp [serve_cert, send_from_directory, hj]
  · exact send_from_directory_status fs cfg.uploadDir name
  · exact send_from_directory_status fs cfg.certDir name

/-- Witness for C6 at a concrete filesystem holding one upload: the
present file is served 200 with its bytes, and a missing certificate
name is answered 404. -/
theorem C6_witness :
    serve_upload ⟨fun q => q == "uploads/a.png", fun _ => false⟩
      (create_app_config "/srv" (fun _ => none)) "a.png"
      = Response.fileOk "uploads/a.png" ∧
    serve_cert ⟨fun q => q == "uploads/a.png", fun _ => false⟩
      (create_app_config "/srv" (fun _ => none)) "missing.pem"
      = Response.notFound := by
  constructor
  · exact (C6_static_file_serving ⟨fun q => q == "uploads/a.png", fun _ => false⟩
      (create_app_config "/srv" (fun _ => none)) "a.png" "uploads/a.png").1
      (by decide) (by decide)
  · exact (C6_static_file_serving ⟨fun q => q == "uploads/a.png", fun _ => false⟩
      (create_app_config "/srv" (fun _ => none)) "missing.pem" "certs/missing.pem").2.2.2.2.1
      (by decide) (by decide)

/-- A requested name whose normalised form escapes the root is rejected
by safe_join. -/
lemma safe_join_escaping (dir name : String) (h : escapesB name = true) :
    safe_join dir name = none := by
  have hne : (name == "") = false := by
    rcases he : name == "" with _ | _
    · rfl
    · exfalso
      have : name = "" := by simpa using he
      subst this
      exact absurd h (by decide)
  simp only [escapesB] at h
  simp [safe_join, hne, h]

/-- A non-empty directory joined with a non-empty, non-escaping name is
accepted by safe_join and resolves to the join with the normalised
name. -/
lemma safe_join_plain (dir name : String) (hd : (dir == "") = false)
    (h : escapesB name = false) (hn : (name == "") = false) :
    safe_join dir name = some (posixJoin dir (normpath name)) := by
  simp only [escapesB] at h
  simp [safe_join, hd, hn, h]

/-- The index document name resolves against any non-empty directory to
the plain join. -/
lemma safe_join_index (d : String) (hd : d ≠ "") :
    safe_join d "index.html" = some (posixJoin d "index.html") := by
  have hd' : (d == "") = false := by simpa using hd
  rw [safe_join_plain d "index.html" hd' (by decide) (by decide)]
  rw [show normpath "index.html" = "index.html" from by decide]

/-- C3: a requested name whose parent-directory segments would escape
the configured root is never served: the uploads and certs handlers
answer 404 for it, and the SPA catch-all can only ever serve the index
document inside the frontend root for it, never the file the escaping
name points at. -/
theorem C3_no_path_traversal (fs : FS) (cfg : Config) (name p : String)
    (h : escapesB name = true) (hf : cfg.frontendDir ≠ "") :
    serve_upload fs cfg name = Response.notFound ∧
    serve_cert fs cfg name = Response.notFound ∧
    (spa_catch_all fs cfg name = Response.fileOk p →
      p = posixJoin cfg.frontendDir "index.html") := by
  refine ⟨?_, ?_, ?_⟩
  · simp [serve_upload, send_from_directory, safe_join_escaping _ _ h]
  · simp [serve_cert, send_from_directory, safe_join_escaping _ _ h]
  · intro hserve
    simp only [spa_catch_all] at hserve
    by_cases hfull : fs.isFile (posixJoin cfg.frontendDir name) = true
    · rw [if_pos hfull] at hserve
      simp only [send_from_directory, safe_join_escaping _ _ h] at hserve
      exact absurd hserve (by simp)
    · rw [if_neg hfull] at hserve
      simp only [serve_spa_index] at hserve
      by_cases hex : fs.pathExists (posixJoin cfg.frontendDir "index.html") = true
      · rw [if_pos hex] at hserve
        simp only [send_from_directory, safe_join_index cfg.frontendDir hf] at hserve
        by_cases hif : fs.isFile (posixJoin cfg.frontendDir "index.html") = true
        · rw [if_pos hif] at hserve
          exact (Response.fileOk.inj hserve).symm
        · rw [if_neg hif] at hserve
          exact absurd hserve (by simp)
      · rw [if_neg hex] at hserve
        exact absurd hserve (by simp)

/-- Witness for C3: even on a filesystem where every path is an
existing file, a traversal name is answered 404 by the uploads and
certs handlers and the catch-all serves no file for it. -/
theorem C3_witness :
    escapesB "../../etc/passwd" = true ∧
    serve_upload ⟨fun _ => true, fun _ => true⟩ (create_app_config "/srv" (fun _ => none))
      "../../etc/passwd" = Response.notFound ∧
    serve_cert ⟨fun _ => true, fun _ => true⟩ (create_app_config "/srv" (fun _ => none))
      "../../etc/passwd" = Response.notFound := by
  refine ⟨by decide, ?_, ?_⟩
  · exact (C3_no_path_traversal ⟨fun _ => true, fun _ => true⟩
      (create_app_config "/srv" (fun _ => none)) "../../etc/passwd" ""
      (by decide) (by decide)).1
  · exact (C3_no_path_traversal ⟨fun _ => true, fun _ => true⟩
      (create_app_config "/srv" (fun _ => none)) "../../etc/passwd" ""
      (by decide) (by decide)).2.1

/-- Filesystem for the C4 counterexample: nothing is a regular file,
and a directory sits at the index path of the frontend root. -/
def dirIndexFS : FS :=
  ⟨fun _ => false, fun q => q == "front/index.html"⟩

/-- Configuration whose frontend directory is the literal front. -/
def frontCfg : Config :=
  create_app_config "/srv" (fun k => if k == "FRONTEND_DIR" then some "front" else none)

/-- C4 counterexample: when the entry at the index path exists but is a
directory rather than a regular file, an unmatched path is answered
404, not the claimed 501 frontend-not-built payload, although no
index document (regular file) exists. -/
theorem C4_spa_counterexample :
    dirIndexFS.isFile "front/about" = false ∧
    dirIndexFS.isFile "front/index.html" = false ∧
    dirIndexFS.isDir "front/index.html" = true ∧
    spa_catch_all dirIndexFS frontCfg "about" = Response.notFound ∧
    statusOf Response.notFound = 404 ∧
    Response.notFound ≠ Response.notBuilt := by
  refine ⟨rfl, rfl, by decide, by decide, rfl, by decide⟩

/-- C4 amended: an unmatched path naming an existing regular file under
the frontend root is served as that file; otherwise, when a regular
file exists at the index path, the index document is served; when
nothing at all exists at the index path the answer is the 501
frontend-not-built payload; but when the entry at the index path
exists without being a regular file (a directory), the answer is 404.
Every outcome is a pure function of the request path and the
filesystem view, so repeated identical requests against unchanged
state give identical outcomes. -/
theorem C4_spa_fallback_amended (fs : FS) (cfg : Config) (p q : String)
    (hf : cfg.frontendDir ≠ "") :
    (fs.isFile (posixJoin cfg.frontendDir p) = true →
      safe_join cfg.frontendDir p = some q → fs.isFile q = true →
      spa_catch_all fs cfg p = Response.fileOk q) ∧
    (fs.isFile (posixJoin cfg.frontendDir p) = false →
      fs.isFile (posixJoin cfg.frontendDir "index.html") = true →
      spa_catch_all fs cfg p = Response.fileOk (posixJoin cfg.frontendDir "index.html")) ∧
    (fs.isFile (posixJoin cfg.frontendDir p) = false →
      fs.pathExists (posixJoin cfg.frontendDir "index.html") = false →
      spa_catch_all fs cfg p = Response.notBuilt ∧
      statusOf (spa_catch_all fs cfg p) = 501) ∧
    (fs.isFile (posixJoin cfg.frontendDir p) = false →
      fs.isFile (posixJoin cfg.frontendDir "index.html") = false →
      fs.isDir (posixJoin cfg.frontendDir "index.html") = true →
      spa_catch_all fs cfg p = Response.notFound) ∧
    (fs.isFile (posixJoin cfg.frontendDir "index.html") = true →
      spa_root fs cfg = Response.fileOk (posixJoin cfg.frontendDir "index.html")) ∧
    (fs.pathExists (posixJoin cfg.frontendDir "index.html") = false →
      spa_root fs cfg = Response.notBuilt) := by
  have hidx : ∀ hif : fs.isFile (posixJoin cfg.frontendDir "index.html") = true,
      serve_spa_index fs cfg = Response.fileOk (posixJoin cfg.frontendDir "index.html") := by
    intro hif
    have hex : fs.pathExists (posixJoin cfg.frontendDir "index.html") = true := by
      simp [FS.pathExists, hif]
    simp only [serve_spa_index, hex, if_pos]
    simp only [send_from_directory, safe_join_index cfg.frontendDir hf, hif, if_pos]
  have hnb : fs.pathExists (posixJoin cfg.frontendDir "index.html") = false →
      serve_spa_index fs cfg = Response.notBuilt := by
    intro hex
    simp [serve_spa_index, hex]
  refine ⟨?_, ?_, ?_, ?_, ?_, ?_⟩
  · intro hfull hj hq
    simp [spa_catch_all, hfull, send_from_directory, hj, hq]
  · intro hfull hif
    simp only [spa_catch_all, hfull]
    simpa using hidx hif
  · intro hfull hex
    have : spa_catch_all fs cfg p = Response.notBuilt := by
      simp only [spa_catch_all, hfull]
      simpa using hnb hex
    exact ⟨this, by rw [this]; rfl⟩
  · intro hfull hif hdir
    have hex : fs.pathExists (posixJoin cfg.frontendDir "index.html") = true := by
      simp [FS.pathExists, hdir]
    simp only [spa_catch_all, hfull]
    simp only [Bool.false_eq_true, if_false]
    simp only [serve_spa_index, hex, if_pos]
    simp [send_from_directory, safe_join_index cfg.frontendDir hf, hif]
  · intro hif
    simpa [spa_root] using hidx hif
  · intro hex
    simpa [spa_root] using hnb hex

/-- Witness for C4 at a filesystem holding only the built index file:
an unmatched path is answered with the index document, and an asset
path naming an existing file is answered with that file. -/
theorem C4_witness :
    spa_catch_all ⟨fun q => q == "front/index.html", fun _ => false⟩ frontCfg "games"
      = Response.fileOk "front/index.html" ∧
    spa_catch_all ⟨fun q => q == "front/app.js", fun _ => false⟩ frontCfg "app.js"
      = Response.fileOk "front/app.js" := by
  constructor
  · exact (C4_spa_fallback_amended ⟨fun q => q == "front/index.html", fun _ => false⟩
      frontCfg "games" "" (by decide)).2.1 (by decide) (by decide)
  · exact (C4_spa_fallback_amended ⟨fun q => q == "front/app.js", fun _ => false⟩
      frontCfg "app.js" "front/app.js" (by decide)).1 (by decide) (by decide) (by decide)

/-- A true listStarts exhibits the second list as the first followed by
a remainder. -/
lemma listStarts_append (pre l : List Char) (h : listStarts pre l = true) :
    ∃ t, l = pre ++ t := by
  induction pre generalizing l with
  | nil => exact ⟨l, rfl⟩
  | cons a as ih =>
    cases l with
    | nil => simp [listStarts] at h
    | cons b bs =>
      simp only [listStarts, Bool.and_eq_true, beq_iff_eq] at h
      obtain ⟨hab, hrest⟩ := h
      subst hab
      obtain ⟨t, ht⟩ := ih bs hrest
      exact ⟨t, by rw [ht, List.cons_append]⟩

/-- C7 counterexample: with the auth module holding one registered
route, the path /api/ghost starts with the /api feature prefix yet is
dispatched to the SPA catch-all, not delegated to any feature module. -/
theorem C7_dispatch_counterexample :
    strStarts "/api/" "/api/ghost" = true ∧
    dispatch ["/api/auth/login"] "/api/ghost" = RouteTarget.spaCatch "api/ghost" ∧
    RouteTarget.spaCatch "api/ghost" ≠ RouteTarget.feature "/api/ghost" := by
  refine ⟨by decide, by decide, by decide⟩

/-- C7 amended: dispatch is by registered rule with first-match
precedence, not by prefix: a path matching a route registered by a
feature module is delegated to that module and no later rule is
consulted; a path matching no feature route is never delegated; and a
path that merely starts with the /api feature prefix without matching
a registered feature route bypasses the uploads, certs, health and
root rules and lands in the SPA catch-all like any other unmatched
path. -/
theorem C7_dispatch_amended (routes : List String) (p : String) :
    (p ∈ routes → dispatch routes p = RouteTarget.feature p) ∧
    (p ∉ routes → ∀ r, dispatch routes p ≠ RouteTarget.feature r) ∧
    (strStarts "/api/" p = true → p ∉ routes →
      dispatch routes p = RouteTarget.spaCatch (strDropN p 1)) := by
  refine ⟨?_, ?_, ?_⟩
  · intro h
    simp [dispatch, h]
  · intro hnot r
    simp only [dispatch, if_neg hnot]
    split
    · simp
    · split
      · simp
      · split
        · simp
        · split
          · simp
          · split <;> simp
  · intro hapi hnot
    obtain ⟨t, ht⟩ := listStarts_append "/api/".data p.data hapi
    have ht' : p.data = '/' :: 'a' :: 'p' :: 'i' :: '/' :: t := ht
    have hu : strStarts "/uploads/" p = false := by
      unfold strStarts
      rw [ht']
      simp [listStarts]
    have hc : strStarts "/certs/" p = false := by
      unfold strStarts
      rw [ht']
      simp [listStarts]
    have hh : (p == "/health") = false := by
      rcases hb : p == "/health" with _ | _
      · rfl
      · exfalso
        have : p = "/health" := by simpa using hb
        rw [this] at ht'
        simp at ht'
    have hr : (p == "/") = false := by
      rcases hb : p == "/" with _ | _
      · rfl
      · exfalso
        have : p = "/" := by simpa using hb
        rw [this] at ht'
        simp at ht'
    have hsl : strStarts "/" p = true := by
      unfold strStarts
      rw [ht']
      simp [listStarts]
    have hdrop : (strDropN p 1 != "") = true := by
      have : strDropN p 1 = String.mk ('a' :: 'p' :: 'i' :: '/' :: t) := by
        unfold strDropN
        rw [ht']
        rfl
      rw [this]
      simp only [bne_iff_ne, ne_eq]
      intro hcon
      exact absurd (mk_eq_empty hcon) (by simp)
    simp [dispatch, hnot, hu, hc, hh, hr, hsl, hdrop]

/-- Witness for C7: a registered feature route is delegated to its
module. -/
theorem C7_witness :
    dispatch ["/api/auth/login"] "/api/auth/login"
      = RouteTarget.feature "/api/auth/login" := by
  exact (C7_dispatch_amended ["/api/auth/login"] "/api/auth/login").1 (by decide)

/-- Environment for the C8 counterexample: the upload directory is
provided, set to the empty string. -/
def emptyUploadEnv : Env :=
  fun k => if k == "UPLOAD_DIR" then some "" else none

/-- C8 counterexample: an environment that provides the empty string
for the upload directory overrides the default with the empty string,
instead of falling back to the default uploads as claimed. -/
theorem C8_env_counterexample :
    emptyUploadEnv "UPLOAD_DIR" = some "" ∧
    (create_app_config "/srv" emptyUploadEnv).uploadDir = "" ∧
    ("" : String) ≠ "uploads" := by
  refine ⟨by decide, by decide, by decide⟩

/-- C8 amended: a variable the environment provides overrides the
default even when its value is empty, and only an unset variable falls
back to the default — with two exceptions: the explicit database name
treats an empty provided value exactly like an unset one, and the port
value is parsed as an integer, so an empty or non-numeric provided
value is a startup parse failure rather than the default. -/
theorem C8_env_amended (cwd : String) (env : Env) (v : String) :
    ((env "JWT_SECRET_KEY" = some v → (create_app_config cwd env).jwtSecretKey = v) ∧
     (env "JWT_SECRET_KEY" = none →
       (create_app_config cwd env).jwtSecretKey = "dev-secret-change-me")) ∧
    ((env "UPLOAD_DIR" = some v → (create_app_config cwd env).uploadDir = v) ∧
     (env "UPLOAD_DIR" = none → (create_app_config cwd env).uploadDir = "uploads")) ∧
    ((env "CERT_DIR" = some v → (create_app_config cwd env).certDir = v) ∧
     (env "CERT_DIR" = none → (create_app_config cwd env).certDir = "certs")) ∧
    ((env "FRONTEND_DIR" = some v → (create_app_config cwd env).frontendDir = v) ∧
     (env "FRONTEND_DIR" = none →
       (create_app_config cwd env).frontendDir = posixJoin (posixJoin cwd "frontend") "dist")) ∧
    ((env "CORS_ORIGINS" = some v → corsSetting env = v) ∧
     (env "CORS_ORIGINS" = none → corsSetting env = "*")) ∧
    ((env "PORT" = some v → portOf env = pyInt v) ∧
     (env "PORT" = none → portOf env = some 5000)) ∧
    ((env "FLASK_DEBUG" = some v → debugOf env = (pyLower v == "true")) ∧
     (env "FLASK_DEBUG" = none → debugOf env = false)) ∧
    ((env "MONGO_URI" = some v → mongoUriOf env = v) ∧
     (env "MONGO_URI" = none → mongoUriOf env = "mongodb://localhost:27017/verdantia") ∧
     (∀ u nm, _init_db env = Except.ok (u, nm) → u = mongoUriOf env)) ∧
    (env "MONGO_DB" = some v → v ≠ "" → _init_db env = Except.ok (mongoUriOf env, v)) ∧
    (env "MONGO_DB" = some "" →
      _init_db env = _init_db (fun k => if k == "MONGO_DB" then none else env k)) := by
  refine ⟨⟨?_, ?_⟩, ⟨?_, ?_⟩, ⟨?_, ?_⟩, ⟨?_, ?_⟩, ⟨?_, ?_⟩, ⟨?_, ?_⟩, ⟨?_, ?_⟩,
    ⟨?_, ?_, ?_⟩, ?_, ?_⟩
  · intro h; simp [create_app_config, getenv, h]
  · intro h; simp [create_app_config, getenv, h]
  · intro h; simp [create_app_config, getenv, h]
  · intro h; simp [create_app_config, getenv, h]
  · intro h; simp [create_app_config, getenv, h]
  · intro h; simp [create_app_config, getenv, h]
  · intro h; simp [create_app_config, getenv, h]
  · intro h; simp [create_app_config, getenv, h]
  · intro h; simp [corsSetting, getenv, h]
  · intro h; simp [corsSetting, getenv, h]
  · intro h; simp [portOf, h]
  · intro h; simp [portOf, h]
  · intro h; simp [debugOf, getenv, h]
  · intro h; simp [debugOf, getenv, h]; decide
  · intro h; simp [mongoUriOf, getenv, h]
  · intro h; simp [mongoUriOf, getenv, h]
  · intro u nm h
    simp only [_init_db] at h
    split at h
    · exact (congrArg Prod.fst (Except.ok.inj h)).symm
    · split at h
      · exact (congrArg Prod.fst (Except.ok.inj h)).symm
      · exact absurd h (by simp)
  · intro h hne; simp [_init_db, h, hne]
  · intro h; simp [_init_db, mongoUriOf, getenv, h]

/-- Witness for C8: an environment providing one directory override
yields that override and the untouched defaults elsewhere. -/
theorem C8_witness :
    (create_app_config "/srv" (fun k => if k == "UPLOAD_DIR" then some "u1" else none)).uploadDir
      = "u1" ∧
    (create_app_config "/srv" (fun k => if k == "UPLOAD_DIR" then some "u1" else none)).certDir
      = "certs" := by
  constructor
  · exact (C8_env_amended "/srv"
      (fun k => if k == "UPLOAD_DIR" then some "u1" else none) "u1").2.1.1 (by decide)
  · exact (C8_env_amended "/srv"
      (fun k => if k == "UPLOAD_DIR" then some "u1" else none) "x").2.2.1.2 (by decide)

/-- An error value is preserved by the makedirs fold. -/
lemma mkFold_error (qs : List String) (e : String) :
    qs.foldl mkdirStep (Except.error e) = Except.error e := by
  induction qs with
  | nil => rfl
  | cons q qs ih =>
    rw [List.foldl_cons]
    exact ih

/-- A successful makedirs fold preserves the files, only grows the
directories, and establishes every visited chain element as a
directory that is not a file. -/
lemma mkFold_ok (qs : List String) (st st' : DirState)
    (h : qs.foldl mkdirStep (Except.ok st) = Except.ok st') :
    st'.files = st.files ∧
    (∀ d, d ∈ st.dirs → d ∈ st'.dirs) ∧
    (∀ q ∈ qs, q = "" ∨ (q ∈ st'.dirs ∧ q ∉ st'.files)) := by
  induction qs generalizing st with
  | nil =>
    simp only [List.foldl_nil, Except.ok.injEq] at h
    subst h
    exact ⟨rfl, fun d hd => hd, by simp⟩
  | cons q qs ih =>
    rw [List.foldl_cons] at h
    by_cases hq : q = ""
    · subst hq
      rw [show mkdirStep (Except.ok st) "" = Except.ok st from by simp [mkdirStep]] at h
      obtain ⟨h1, h2, h3⟩ := ih st h
      refine ⟨h1, h2, ?_⟩
      intro r hr
      rcases List.mem_cons.mp hr with hr | hr
      · exact Or.inl hr
      · exact h3 r hr
    · by_cases hf : q ∈ st.files
      · rw [show mkdirStep (Except.ok st) q = Except.error "FileExistsError" from by
          simp [mkdirStep, hq, hf]] at h
        rw [mkFold_error] at h
        exact absurd h (by simp)
      · by_cases hd : q ∈ st.dirs
        · rw [show mkdirStep (Except.ok st) q = Except.ok st from by
            simp [mkdirStep, hq, hf, hd]] at h
          obtain ⟨h1, h2, h3⟩ := ih st h
          refine ⟨h1, h2, ?_⟩
          intro r hr
          rcases List.mem_cons.mp hr with hr | hr
          · subst hr
            refine Or.inr ⟨h2 r hd, ?_⟩
            rw [h1]
            exact hf
          · exact h3 r hr
        · rw [show mkdirStep (Except.ok st) q = Except.ok ⟨st.dirs ++ [q], st.files⟩ from by
            simp [mkdirStep, hq, hf, hd]] at h
          obtain ⟨h1, h2, h3⟩ := ih ⟨st.dirs ++ [q], st.files⟩ h
          refine ⟨h1, ?_, ?_⟩
          · intro d hdm
            exact h2 d (by simp [hdm])
          · intro r hr
            rcases List.mem_cons.mp hr with hr | hr
            · subst hr
              refine Or.inr ⟨h2 r (by simp), ?_⟩
              rw [h1]
              exact hf
            · exact h3 r hr

/-- A makedirs fold over chain elements that are already directories
(and not files) succeeds without changing the state. -/
lemma mkFold_noop (qs : List String) (st : DirState)
    (h : ∀ q ∈ qs, q = "" ∨ (q ∈ st.dirs ∧ q ∉ st.files)) :
    qs.foldl mkdirStep (Except.ok st) = Except.ok st := by
  induction qs with
  | nil => rfl
  | cons q qs ih =>
    rw [List.foldl_cons]
    have hstep : mkdirStep (Except.ok st) q = Except.ok st := by
      rcases h q (List.mem_cons_self q qs) with hq | ⟨hd, hf⟩
      · simp [mkdirStep, hq]
      · by_cases hq : q = ""
        · simp [mkdirStep, hq]
        · simp [mkdirStep, hq, hd, hf]
    rw [hstep]
    exact ih (fun r hr => h r (List.mem_cons_of_mem q hr))

/-- Restatement of mkFold_ok for makedirs. -/
lemma makedirs_ok (p : String) (st st' : DirState)
    (h : makedirs st p = Except.ok st') :
    st'.files = st.files ∧
    (∀ d, d ∈ st.dirs → d ∈ st'.dirs) ∧
    (∀ q ∈ pathChain p, q = "" ∨ (q ∈ st'.dirs ∧ q ∉ st'.files)) :=
  mkFold_ok (pathChain p) st st' h

/-- Restatement of mkFold_noop for makedirs. -/
lemma makedirs_noop (p : String) (st : DirState)
    (h : ∀ q ∈ pathChain p, q = "" ∨ (q ∈ st.dirs ∧ q ∉ st.files)) :
    makedirs st p = Except.ok st :=
  mkFold_noop (pathChain p) st h

/-- C9: the directory-ensure startup step is idempotent: when a run
succeeds, it has created the whole ancestor chain of both directories
without touching any file, and running the step again from the
resulting state succeeds and leaves the state unchanged; and a run
from a state where both chains already exist as directories succeeds
without changing anything. -/
theorem C9_directory_ensure_idempotent (st st' : DirState) (cfg : Config) :
    (ensure_dirs st cfg = Except.ok st' →
      ensure_dirs st' cfg = Except.ok st' ∧
      st'.files = st.files ∧
      (∀ q ∈ pathChain cfg.uploadDir, q = "" ∨ q ∈ st'.dirs) ∧
      (∀ q ∈ pathChain cfg.certDir, q = "" ∨ q ∈ st'.dirs)) ∧
    ((∀ q ∈ pathChain cfg.uploadDir, q = "" ∨ (q ∈ st.dirs ∧ q ∉ st.files)) →
     (∀ q ∈ pathChain cfg.certDir, q = "" ∨ (q ∈ st.dirs ∧ q ∉ st.files)) →
      ensure_dirs st cfg = Except.ok st) := by
  constructor
  · intro h
    unfold ensure_dirs at h
    rcases hm : makedirs st cfg.uploadDir with e | st1
    · rw [hm] at h
      exact absurd h (by simp)
    · rw [hm] at h
      obtain ⟨h1f, h1d, h1c⟩ := makedirs_ok _ _ _ hm
      obtain ⟨h2f, h2d, h2c⟩ := makedirs_ok _ _ _ h
      have hu' : ∀ q ∈ pathChain cfg.uploadDir, q = "" ∨ (q ∈ st'.dirs ∧ q ∉ st'.files) := by
        intro q hq
        rcases h1c q hq with hq0 | ⟨hqd, hqf⟩
        · exact Or.inl hq0
        · refine Or.inr ⟨h2d q hqd, ?_⟩
          rw [h2f]
          exact hqf
      have hrun1 : makedirs st' cfg.uploadDir = Except.ok st' := makedirs_noop _ _ hu'
      have hrun2 : makedirs st' cfg.certDir = Except.ok st' := makedirs_noop _ _ h2c
      refine ⟨?_, ?_, ?_, ?_⟩
      · unfold ensure_dirs
        rw [hrun1]
        exact hrun2
      · rw [h2f, h1f]
      · intro q hq
        rcases hu' q hq with h0 | h0
        · exact Or.inl h0
        · exact Or.inr h0.1
      · intro q hq
        rcases h2c q hq with h0 | h0
        · exact Or.inl h0
        · exact Or.inr h0.1
  · intro hu hc
    unfold ensure_dirs
    rw [makedirs_noop _ _ hu]
    exact makedirs_noop _ _ hc

/-- Witness for C9: ensuring the default directories on an empty
filesystem creates them, and running the step again from the resulting
state succeeds and changes nothing. -/
theorem C9_witness :
    ensure_dirs ⟨[], []⟩ (create_app_config "/srv" (fun _ => none))
      = Except.ok ⟨["uploads", "certs"], []⟩ ∧
    ensure_dirs ⟨["uploads", "certs"], []⟩ (create_app_config "/srv" (fun _ => none))
      = Except.ok ⟨["uploads", "certs"], []⟩ := by
  constructor
  · decide
  · exact ((C9_directory_ensure_idempotent ⟨[], []⟩ ⟨["uploads", "certs"], []⟩
      (create_app_config "/srv" (fun _ => none))).1 (by decide)).1

end Verdantia
